import Mathlib

/-!
Verification development for the log-analysis engine of the peak-cloud-share
repository (`src/core/log_analysis.py`, class `AdvancedLogAnalyzer`, together
with the driver loop of the `log_analysis` route in `src/app.py`).

Strings are modelled as `List Char`.  The Python regular expressions used by
the parsers are modelled by a small backtracking matcher over a token list
(`RTok`), with lazy groups `(.*?)`, greedy character-class groups such as
`(\d+)`, `(\w+)` and `([^\s]+)`, and a greedy non-capturing `\s*`.  The
matcher carries a fuel argument; every concrete evaluation in this file stays
far below the fuel bound.  Python dictionaries (`defaultdict(int)` etc.) are
modelled as insertion-ordered association lists.  Fallible Python operations
(`datetime.strptime`, `float(...)`, indexing `[0]` into an empty list) are
modelled in an `Except PyErr` monad, mirroring the exceptions `ValueError`
and `IndexError`.
-/

abbrev Str := List Char

/-- Python `\s` whitespace characters (ASCII subset relevant here). -/
def isSpaceC (c : Char) : Bool :=
  c = ' ' || c = '\t' || c = '\n' || c = '\r' || c = '\x0b' || c = '\x0c'

/-- Model of the Python `re` word class `\w` on the character sets occurring in
these logs: ASCII alphanumerics, underscore, and non-ASCII characters (the CJK
characters appearing in the log text are word characters for Python). -/
def isWordC (c : Char) : Bool :=
  c.isAlphanum || c = '_' || decide (c.toNat ≥ 128)

/-- Python substring prefix test: does `pat` start `hay`. -/
def startsWithL : List Char → List Char → Bool
  | [], _ => true
  | _ :: _, [] => false
  | p :: ps, h :: hs => p = h && startsWithL ps hs

/-- Python `pat in hay` substring containment. -/
def containsSub (hay pat : Str) : Bool :=
  match hay with
  | [] => startsWithL pat []
  | _ :: t => startsWithL pat hay || containsSub t pat

/-- Python `c in hay` for a single character. -/
def containsChar (c : Char) (cs : Str) : Bool :=
  cs.any (fun x => x = c)

/-- Python `str.split()` helper: accumulates the current token. -/
def splitWsAux : List Char → Str → List Str
  | [], cur => if cur.isEmpty then [] else [cur]
  | c :: t, cur =>
    if isSpaceC c then
      (if cur.isEmpty then splitWsAux t [] else cur :: splitWsAux t [])
    else splitWsAux t (cur ++ [c])

/-- Python `str.split()` with no argument: split on whitespace runs, dropping
empty tokens. -/
def splitWs (cs : Str) : List Str := splitWsAux cs []

/-- Python `str.split(sep)` for a one-character separator: keeps empty parts,
always returns a non-empty list. -/
def splitOnChar (sep : Char) : List Char → List Str
  | [] => [[]]
  | c :: t =>
    if c = sep then [] :: splitOnChar sep t
    else
      match splitOnChar sep t with
      | [] => [[c]]
      | h :: r => (c :: h) :: r

/-- Python `str.strip()`: remove leading and trailing whitespace. -/
def stripWs (cs : Str) : Str :=
  ((cs.dropWhile isSpaceC).reverse.dropWhile isSpaceC).reverse

/-- Value of a decimal digit character. -/
def digitVal (c : Char) : Nat := c.toNat - 48

/-- Numeric value of a digit string (Python `int` on a `\d+` match). -/
def natOfDigits (cs : Str) : Nat := cs.foldl (fun a c => a * 10 + digitVal c) 0

/-! ## Regex engine

Tokens of the model regular expressions.  A `lazyC` token is a capturing
`(.*?)` group carrying the characters consumed so far; `plusC p` is a
capturing greedy group over the character class `p` (used for `(\d+)`,
`(\w+)`, `([^\s]+)`); `starC p` is the greedy non-capturing `\s*`. -/
inductive RTok where
  | lit : Char → RTok
  | lazyC : Str → RTok
  | plusC : (Char → Bool) → Str → RTok
  | starC : (Char → Bool) → RTok

/-- Backtracking matcher: `reM fuel toks input` attempts to match the token
list against a prefix of `input` (like Python `re.match`), returning the list
of captured groups in pattern order.  Lazy groups prefer the shortest match,
greedy groups the longest, with full backtracking; `.` does not match a
newline. -/
def reM : Nat → List RTok → List Char → Option (List Str)
  | 0, _, _ => none
  | _ + 1, [], _ => some []
  | _ + 1, RTok.lit _ :: _, [] => none
  | f + 1, RTok.lit c :: ts, x :: xs => if x = c then reM f ts xs else none
  | f + 1, RTok.lazyC cur :: ts, input =>
    match reM f ts input with
    | some gs => some (cur :: gs)
    | none =>
      match input with
      | [] => none
      | x :: xs => if x = '\n' then none else reM f (RTok.lazyC (cur ++ [x]) :: ts) xs
  | f + 1, RTok.plusC _ cur :: ts, [] =>
    if cur.isEmpty then none else (reM f ts []).map (fun gs => cur :: gs)
  | f + 1, RTok.plusC p cur :: ts, x :: xs =>
    if p x then
      match reM f (RTok.plusC p (cur ++ [x]) :: ts) xs with
      | some gs => some gs
      | none =>
        if cur.isEmpty then none else (reM f ts (x :: xs)).map (fun gs => cur :: gs)
    else
      if cur.isEmpty then none else (reM f ts (x :: xs)).map (fun gs => cur :: gs)
  | f + 1, RTok.starC _ :: ts, [] => reM f ts []
  | f + 1, RTok.starC p :: ts, x :: xs =>
    if p x then
      match reM f (RTok.starC p :: ts) xs with
      | some gs => some gs
      | none => reM f ts (x :: xs)
    else reM f ts (x :: xs)

/-- Python `re.search`: try `re.match` at every start position, leftmost
first. -/
def reSearch (f : Nat) (ts : List RTok) : List Char → Option (List Str)
  | [] => reM f ts []
  | x :: xs =>
    match reM f ts (x :: xs) with
    | some gs => some gs
    | none => reSearch f ts xs

/-- Fuel bound handed to the matcher; generous for every line length used. -/
def reFuel (cs : Str) : Nat := cs.length * cs.length + 100 * cs.length + 1000

/-- Literal characters of a string as regex tokens. -/
def lits (t : String) : List RTok := t.data.map RTok.lit

/-- Fresh lazy `(.*?)` group token. -/
def lazyG : RTok := RTok.lazyC []

/-- Access-log pattern from `parse_access_log` (line 73). -/
def accessPattern : List RTok :=
  [RTok.lit '['] ++ [lazyG] ++ lits "] [" ++ [lazyG] ++ lits "] [" ++ [lazyG] ++
    lits "] \"" ++ [lazyG] ++ lits "\" " ++ [RTok.plusC Char.isDigit []] ++
    [RTok.lit ' '] ++ [lazyG] ++ lits "ms \"" ++ [lazyG] ++ [RTok.lit '"']

/-- Application/error-log pattern from `parse_application_log` (line 108) and
`parse_error_log` (line 142). -/
def appPattern : List RTok :=
  [RTok.lit '['] ++ [lazyG] ++ lits "] [" ++ [RTok.plusC isWordC [], RTok.starC isSpaceC] ++
    lits "] [" ++ [RTok.plusC isWordC [], RTok.starC isSpaceC] ++ lits "] [" ++ [lazyG] ++
    lits "] [" ++ [lazyG] ++ lits "] " ++ [lazyG] ++ lits " [" ++ [lazyG] ++ [RTok.lit ']']

/-- Pattern `user=([^\s]+)` from `analyze_logs` (line 178). -/
def userKVPattern : List RTok := lits "user=" ++ [RTok.plusC (fun c => !isSpaceC c) []]

/-- Pattern `path=([^\s]+)` from `analyze_logs` (line 194). -/
def pathKVPattern : List RTok := lits "path=" ++ [RTok.plusC (fun c => !isSpaceC c) []]

/-- Pattern matching the user token after the literal word for user followed
by a space (lines 128 and 207). -/
def userPattern : List RTok := lits "用户 " ++ [lazyG] ++ [RTok.lit ' ']

/-- Pattern extracting the rejected upload filename (line 203). -/
def uploadPattern : List RTok := lits "上传文件 " ++ [lazyG] ++ lits " 失败"

/-! ## Timestamps -/

structure Timestamp where
  year : Nat
  month : Nat
  day : Nat
  hour : Nat
  minute : Nat
  second : Nat
  deriving DecidableEq, Repr

/-- Leap-year test of the proleptic Gregorian calendar used by `datetime`. -/
def isLeap (y : Nat) : Bool := y % 4 == 0 && (y % 100 != 0 || y % 400 == 0)

/-- Days in a month as validated by `datetime`. -/
def daysInMonth (y m : Nat) : Nat :=
  if m = 2 then (if isLeap y then 29 else 28)
  else if m = 4 ∨ m = 6 ∨ m = 9 ∨ m = 11 then 30
  else 31

/-- One-or-two digit numeric field of `strptime`, preferring the two-digit
reading when it satisfies `valid2` (this matches the behaviour of the ordered
regex alternations CPython compiles for `%m`, `%d`, `%H`, `%M`, `%S`). -/
def field2 (valid2 valid1 : Nat → Bool) : Str → Option (Nat × Str)
  | a :: b :: rest =>
    if a.isDigit && b.isDigit && valid2 (digitVal a * 10 + digitVal b) then
      some (digitVal a * 10 + digitVal b, rest)
    else if a.isDigit && valid1 (digitVal a) then some (digitVal a, b :: rest)
    else none
  | [a] => if a.isDigit && valid1 (digitVal a) then some (digitVal a, []) else none
  | [] => none

/-- Literal separator character of the `strptime` format. -/
def expectChar (c : Char) : Str → Option Str
  | x :: t => if x = c then some t else none
  | [] => none

/-- Model of `datetime.strptime(s, '%Y-%m-%d %H:%M:%S')`: a four-digit year,
flexible-width calendar fields with the range checks CPython performs, the
whole string consumed, and the `datetime` constructor's validation of the day
against the month length and of the year being positive.  Failure models the
`ValueError` the call raises. -/
def strptimeYmdHms (cs : Str) : Option Timestamp := do
  match cs with
  | a :: b :: c :: d :: rest =>
    if a.isDigit && b.isDigit && c.isDigit && d.isDigit then
      let y := digitVal a * 1000 + digitVal b * 100 + digitVal c * 10 + digitVal d
      let rest ← expectChar '-' rest
      let (m, rest) ← field2 (fun v => decide (1 ≤ v ∧ v ≤ 12)) (fun v => decide (1 ≤ v)) rest
      let rest ← expectChar '-' rest
      let (dy, rest) ← field2 (fun v => decide (1 ≤ v ∧ v ≤ 31)) (fun v => decide (1 ≤ v)) rest
      let rest ← expectChar ' ' rest
      let (hh, rest) ← field2 (fun v => decide (v ≤ 23)) (fun _ => true) rest
      let rest ← expectChar ':' rest
      let (mi, rest) ← field2 (fun v => decide (v ≤ 59)) (fun _ => true) rest
      let rest ← expectChar ':' rest
      let (ss, rest) ← field2 (fun v => decide (v ≤ 59)) (fun _ => true) rest
      if rest = [] ∧ 1 ≤ y ∧ dy ≤ daysInMonth y m then
        some { year := y, month := m, day := dy, hour := hh, minute := mi, second := ss }
      else none
    else none
  | _ => none

/-- Model of Python `float(...)` on the plain decimal strings the logs hold:
optional surrounding whitespace, optional sign, digits with an optional
fractional part.  Other float syntaxes do not occur in this code's inputs. -/
def parseFloat (cs : Str) : Option Rat :=
  let t := stripWs cs
  let (neg, t) :=
    match t with
    | '-' :: r => (true, r)
    | '+' :: r => (false, r)
    | r => (false, r)
  let intPart := t.takeWhile Char.isDigit
  let t2 := t.drop intPart.length
  match t2 with
  | [] =>
    if intPart.isEmpty then none
    else some ((if neg then -1 else 1) * (natOfDigits intPart : Rat))
  | '.' :: fr =>
    if fr.all Char.isDigit ∧ ¬(intPart.isEmpty ∧ fr.isEmpty) then
      some ((if neg then -1 else 1) *
        ((natOfDigits intPart : Rat) + (natOfDigits fr : Rat) / ((10 : Rat) ^ fr.length)))
    else none
  | _ => none

/-! ## Data model

`AccessEntry` and `AppEntry` model the record dictionaries built in
`parse_access_log` (lines 78-89) and `parse_application_log` /
`parse_error_log` (lines 113-122, 147-156).  The `log_type` tag is carried by
the `LEntry` sum used during aggregation. -/

structure AccessEntry where
  timestamp : Timestamp
  ip : Str
  request_id : Str
  method : Str
  path : Str
  status_code : Nat
  response_time : Rat
  user_agent : Str
  protocol : Str
  deriving DecidableEq, Repr

structure AppEntry where
  timestamp : Timestamp
  log_level : Str
  module : Str
  ip : Str
  request_id : Str
  message : Str
  context : Str
  deriving DecidableEq, Repr

structure SecurityEvent where
  timestamp : Timestamp
  user : Str
  filename : Str
  type : Str
  extension : Str
  deriving DecidableEq, Repr

/-- Python exceptions that `parse_access_log` and its siblings can raise. -/
inductive PyErr where
  | valueError
  | indexError
  deriving DecidableEq, Repr

/-- String constants used by the analyzer. -/
def wDownload : Str := "download".data
def wUnknown : Str := "unknown".data
def wUserEq : Str := "user=".data
def wPathEq : Str := "path=".data
def wYonghu : Str := "用户".data
def wGaowei : Str := "高危文件类型".data
def wLanjie : Str := "高危文件拦截".data
def wError : Str := "ERROR".data
def wHttp : Str := "HTTP/1.1".data
def wRequests : Str := "requests".data

/-! ## Parsers -/

/-- `parse_access_log` (lines 64-97), pure part: regex match, then the record
dictionary construction in source order.  `datetime.strptime` may raise
`ValueError`; `match.group(4).split()[0]` raises `IndexError` when the quoted
request string has no whitespace-delimited token; `float(match.group(6))` may
raise `ValueError`.  A non-matching line yields no record and no error. -/
def parse_access_log (line : Str) : Except PyErr (Option AccessEntry) :=
  match reM (reFuel line) accessPattern line with
  | none => .ok none
  | some gs => do
    let ts ←
      match strptimeYmdHms (gs.getD 0 []) with
      | some t => Except.ok t
      | none => Except.error PyErr.valueError
    let req := gs.getD 3 []
    let toks := splitWs req
    let method ←
      match toks with
      | [] => Except.error PyErr.indexError
      | m :: _ => Except.ok m
    let path := if toks.length > 1 then toks.getD 1 [] else []
    let rt ←
      match parseFloat (gs.getD 5 []) with
      | some q => Except.ok q
      | none => Except.error PyErr.valueError
    Except.ok (some
      { timestamp := ts
        ip := gs.getD 1 []
        request_id := gs.getD 2 []
        method := method
        path := path
        status_code := natOfDigits (gs.getD 4 [])
        response_time := rt
        user_agent := gs.getD 6 []
        protocol := wHttp })

/-- Record construction shared by `parse_application_log` (lines 113-122) and
`parse_error_log` (lines 147-156): the two methods use the same pattern and
the same fields, differing only in the `log_type` tag and the target list. -/
def buildAppEntry (gs : List Str) : Except PyErr AppEntry := do
  let ts ←
    match strptimeYmdHms (gs.getD 0 []) with
    | some t => Except.ok t
    | none => Except.error PyErr.valueError
  Except.ok
    { timestamp := ts
      log_level := stripWs (gs.getD 1 [])
      module := stripWs (gs.getD 2 [])
      ip := gs.getD 3 []
      request_id := gs.getD 4 []
      message := gs.getD 5 []
      context := gs.getD 6 [] }

/-- `parse_application_log` (lines 99-124), pure part. -/
def parse_application_log (line : Str) : Except PyErr (Option AppEntry) :=
  match reM (reFuel line) appPattern line with
  | none => .ok none
  | some gs => (buildAppEntry gs).map some

/-- `parse_error_log` (lines 133-158), pure part: same pattern and fields. -/
def parse_error_log (line : Str) : Except PyErr (Option AppEntry) :=
  match reM (reFuel line) appPattern line with
  | none => .ok none
  | some gs => (buildAppEntry gs).map some

/-- User extraction from an application message (lines 127-131): if the
message contains the user token, search for the token followed by a space,
capture the lazy group up to that space. -/
def extract_user (msg : Str) : Option Str :=
  if containsSub msg wYonghu = true then
    match reSearch (reFuel msg) userPattern msg with
    | some gs => some (gs.headD [])
    | none => none
  else none

/-! ## Analyzer state -/

/-- Insertion-ordered map update modelling `defaultdict(int)[k] += 1`: an
existing key keeps its position, a new key is appended with count 1. -/
def bump {α : Type} [DecidableEq α] (k : α) : List (α × Nat) → List (α × Nat)
  | [] => [(k, 1)]
  | (a, v) :: t => if a = k then (a, v + 1) :: t else (a, v) :: bump k t

/-- Nested map update modelling `defaultdict(lambda: defaultdict(int))`:
`m[k][a] += 1`. -/
def bump2 (k a : Str) : List (Str × List (Str × Nat)) → List (Str × List (Str × Nat))
  | [] => [(k, [(a, 1)])]
  | (k0, inner) :: t => if k0 = k then (k0, bump a inner) :: t else (k0, inner) :: bump2 k a t

/-- `defaultdict(list)[k].append(v)`. -/
def appendVal (k : Str) (v : Rat) : List (Str × List Rat) → List (Str × List Rat)
  | [] => [(k, [v])]
  | (k0, l) :: t => if k0 = k then (k0, l ++ [v]) :: t else (k0, l) :: appendVal k v t

/-- Association-list lookup (Python dict access). -/
def alookup {α β : Type} [DecidableEq α] (k : α) : List (α × β) → Option β
  | [] => none
  | (a, b) :: t => if a = k then some b else alookup k t

/-- Count read with the `defaultdict(int)` default of 0. -/
def alookupN {α : Type} [DecidableEq α] (k : α) (m : List (α × Nat)) : Nat :=
  (alookup k m).getD 0

/-- The `analysis_result` container initialised in `__init__` (lines 47-62). -/
structure AnalysisResult where
  time_distribution : List (Nat × Nat)
  request_types : List (Str × Nat)
  status_codes : List (Nat × Nat)
  ip_activities : List (Str × Nat)
  log_levels : List (Str × Nat)
  handlers : List (Str × Nat)
  user_actions : List (Str × List (Str × Nat))
  protocols : List (Str × Nat)
  security_events : List SecurityEvent
  file_types : List (Str × Nat)
  users : List (Str × Nat)
  download_stats : List (Str × Nat)
  response_times : List Rat
  interface_response_times : List (Str × List Rat)
  deriving DecidableEq, Repr

def initResult : AnalysisResult :=
  { time_distribution := []
    request_types := []
    status_codes := []
    ip_activities := []
    log_levels := []
    handlers := []
    user_actions := []
    protocols := []
    security_events := []
    file_types := []
    users := []
    download_stats := []
    response_times := []
    interface_response_times := [] }

/-- The `log_data` container initialised in `__init__` (lines 40-44). -/
structure LogData where
  access : List AccessEntry
  application : List AppEntry
  error : List AppEntry
  deriving DecidableEq, Repr

def initLogData : LogData := { access := [], application := [], error := [] }

/-- The analyzer object: `log_data` plus `analysis_result`. -/
structure Analyzer where
  log_data : LogData
  analysis_result : AnalysisResult
  deriving DecidableEq, Repr

def initAnalyzer : Analyzer := { log_data := initLogData, analysis_result := initResult }

/-! ## Aggregation (`analyze_logs`, lines 160-216) -/

/-- A record together with its `log_type` tag, as iterated by the loop
`for log_type in ['access', 'application', 'error']`. -/
inductive LEntry where
  | acc : AccessEntry → LEntry
  | app : AppEntry → LEntry
  | err : AppEntry → LEntry
  deriving DecidableEq, Repr

/-- `entry['timestamp']`. -/
def LEntry.timestampOf : LEntry → Timestamp
  | .acc e => e.timestamp
  | .app e => e.timestamp
  | .err e => e.timestamp

/-- `entry.get('context', '')`: access records carry no context key. -/
def LEntry.contextOf : LEntry → Str
  | .acc _ => []
  | .app e => e.context
  | .err e => e.context

/-- `entry.get('log_level')`: `None` for access records. -/
def LEntry.levelOpt : LEntry → Option Str
  | .acc _ => none
  | .app e => some e.log_level
  | .err e => some e.log_level

/-- `entry.get('log_level', '')` as used on line 190. -/
def LEntry.levelD : LEntry → Str
  | .acc _ => []
  | .app e => e.log_level
  | .err e => e.log_level

/-- `entry.get('message', '')`: access records carry no message key. -/
def LEntry.messageOf : LEntry → Str
  | .acc _ => []
  | .app e => e.message
  | .err e => e.message

/-- The flattened iteration order of `analyze_logs`: all access records, then
all application records, then all error records, each in stored order. -/
def entriesOf (d : LogData) : List LEntry :=
  d.access.map LEntry.acc ++ d.application.map LEntry.app ++ d.error.map LEntry.err

/-- `entry['path'].split('/')[-1]` (line 185). -/
def fileNameOf (path : Str) : Str := (splitOnChar '/' path).getLastD []

/-- `filename.split('.')[-1] if '.' in filename else 'unknown'` (line 186):
the extension key is taken from the filename as written, with no lowercasing. -/
def extKeyOf (path : Str) : Str :=
  let filename := fileNameOf path
  if containsChar '.' filename = true then (splitOnChar '.' filename).getLastD []
  else wUnknown

/-- `path.split('?')[0] if '?' in path else path` (line 96). -/
def stripQuery (path : Str) : Str :=
  if containsChar '?' path = true then (splitOnChar '?' path).headD [] else path

/-- Hour-of-day bump (lines 167-168). -/
def updTime (r : AnalysisResult) (le : LEntry) : AnalysisResult :=
  { r with time_distribution := bump le.timestampOf.hour r.time_distribution }

/-- The `user=` branch of the access block (lines 176-181).  Access records
carry no context key, so `entry.get('context', '')` is always the empty
string here and the branch never fires. -/
def userActionsUpd (m : List (Str × List (Str × Nat))) : List (Str × List (Str × Nat)) :=
  let ctx : Str := []
  if containsSub ctx wUserEq = true then
    match reSearch (reFuel ctx) userKVPattern ctx with
    | some gs => bump2 (gs.headD []) wRequests m
    | none => m
  else m

/-- The `if log_type == 'access'` block of `analyze_logs` (lines 170-188):
method, status, ip and protocol counters, the (vacuous) `user=` branch, and
the download branch feeding `file_types` and `download_stats`. -/
def updAccess (r : AnalysisResult) : LEntry → AnalysisResult
  | .acc e =>
    { r with
      request_types := bump e.method r.request_types
      status_codes := bump e.status_code r.status_codes
      ip_activities := bump e.ip r.ip_activities
      protocols := bump e.protocol r.protocols
      user_actions := userActionsUpd r.user_actions
      file_types :=
        if containsSub e.path wDownload = true then bump (extKeyOf e.path) r.file_types
        else r.file_types
      download_stats :=
        if containsSub e.path wDownload = true then bump (fileNameOf e.path) r.download_stats
        else r.download_stats }
  | _ => r

/-- Level counter (line 190), applied to every record with the empty-string
default for access records. -/
def updLevel (r : AnalysisResult) (le : LEntry) : AnalysisResult :=
  { r with log_levels := bump le.levelD r.log_levels }

/-- The `path=` extraction from the context field (lines 192-197). -/
def handlerKeyOf (le : LEntry) : Option Str :=
  let ctx := le.contextOf
  if containsSub ctx wPathEq = true then
    match reSearch (reFuel ctx) pathKVPattern ctx with
    | some gs => some (gs.headD [])
    | none => none
  else none

def updHandlers (r : AnalysisResult) (le : LEntry) : AnalysisResult :=
  match handlerKeyOf le with
  | some p => { r with handlers := bump p r.handlers }
  | none => r

/-- The security-event decision tree (lines 200-216): error level, the
high-risk marker in the message, an extractable filename and an extractable
user; the produced event carries the record timestamp, the user, the filename,
the fixed block type and the extension of the filename. -/
def secEventOf (le : LEntry) : Option SecurityEvent :=
  if le.levelOpt = some wError ∧ containsSub le.messageOf wGaowei = true then
    let message := le.messageOf
    if message ≠ [] then
      match reSearch (reFuel message) uploadPattern message with
      | some gs =>
        let filename := gs.headD []
        let fext :=
          if containsChar '.' filename = true then (splitOnChar '.' filename).getLastD []
          else wUnknown
        match reSearch (reFuel message) userPattern message with
        | some gs2 =>
          some
            { timestamp := le.timestampOf
              user := gs2.headD []
              filename := filename
              type := wLanjie
              extension := fext }
        | none => none
      | none => none
    else none
  else none

def updSecurity (r : AnalysisResult) (le : LEntry) : AnalysisResult :=
  { r with security_events := r.security_events ++ (secEventOf le).toList }

/-- One iteration of the `analyze_logs` loop body (lines 166-216), in source
order: time distribution, the access block, log levels, handlers, security
events. -/
def analyze_entry (r : AnalysisResult) (le : LEntry) : AnalysisResult :=
  updSecurity (updHandlers (updLevel (updAccess (updTime r le) le) le) le) le

/-- Folding the loop body over a record list. -/
def analyzeList (r : AnalysisResult) (l : List LEntry) : AnalysisResult :=
  l.foldl analyze_entry r

/-- `analyze_logs` applied to an analyzer object. -/
def analyze_logs (st : Analyzer) : Analyzer :=
  { st with analysis_result := analyzeList st.analysis_result (entriesOf st.log_data) }

/-! ## Feeding lines (parse-phase mutations and the `app.py` driver loop) -/

/-- The `users` accumulation performed inside `parse_application_log`
(lines 127-131), expressed over a list of stored records. -/
def usersOf (l : List AppEntry) : List (Str × Nat) :=
  l.foldl
    (fun m e =>
      match extract_user e.message with
      | some u => bump u m
      | none => m)
    []

/-- State mutation of one `parse_access_log` call (lines 91-97): append the
record, append its response time, and append the response time under the
query-stripped path. -/
def feed_access (st : Analyzer) (line : Str) : Except PyErr Analyzer :=
  match parse_access_log line with
  | .error e => .error e
  | .ok none => .ok st
  | .ok (some e) =>
    .ok
      { st with
        log_data := { st.log_data with access := st.log_data.access ++ [e] }
        analysis_result :=
          { st.analysis_result with
            response_times := st.analysis_result.response_times ++ [e.response_time]
            interface_response_times :=
              appendVal (stripQuery e.path) e.response_time
                st.analysis_result.interface_response_times } }

/-- State mutation of one `parse_application_log` call (lines 123-131):
append the record, then tally the extracted user if any. -/
def feed_application (st : Analyzer) (line : Str) : Except PyErr Analyzer :=
  match parse_application_log line with
  | .error e => .error e
  | .ok none => .ok st
  | .ok (some e) =>
    let st1 :=
      { st with log_data := { st.log_data with application := st.log_data.application ++ [e] } }
    match extract_user e.message with
    | some u =>
      .ok
        { st1 with
          analysis_result :=
            { st1.analysis_result with users := bump u st1.analysis_result.users } }
    | none => .ok st1

/-- State mutation of one `parse_error_log` call (lines 157-158). -/
def feed_error (st : Analyzer) (line : Str) : Except PyErr Analyzer :=
  match parse_error_log line with
  | .error e => .error e
  | .ok none => .ok st
  | .ok (some e) =>
    .ok { st with log_data := { st.log_data with error := st.log_data.error ++ [e] } }

/-- The per-file line loop of the `log_analysis` route in `app.py`
(lines 719-735): lines are fed sequentially and any exception raised by a
parse call propagates, aborting the remaining lines. -/
def feedAll (f : Analyzer → Str → Except PyErr Analyzer) :
    Analyzer → List Str → Except PyErr Analyzer
  | st, [] => .ok st
  | st, l :: ls =>
    match f st l with
    | .error e => .error e
    | .ok st1 => feedAll f st1 ls

/-- The analysis run of the route (app.py lines 708-739): feed the access,
application and error files in that order through a fresh analyzer, then run
`analyze_logs`.  Any exception aborts the whole run (the route's handler
answers with an internal error instead of a report). -/
def run_analysis (accessLines appLines errLines : List Str) : Except PyErr Analyzer := do
  let st ← feedAll feed_access initAnalyzer accessLines
  let st ← feedAll feed_application st appLines
  let st ← feedAll feed_error st errLines
  .ok (analyze_logs st)

/-! ## Report assembly (`generate_report`, lines 355-412) -/

/-- `total_requests = sum(time_distribution.values())` (line 361). -/
def total_requests (r : AnalysisResult) : Nat := (r.time_distribution.map Prod.snd).sum

/-- Decimal digits of a natural number. -/
def natDigits (n : Nat) : Str := (Nat.repr n).data

/-- Two-decimal rendering of a non-negative rational, a decimal model of the
Python float format `f"{x:.2f}"` (the difference in rounding mode at exact
midpoints is immaterial to every theorem below, which only evaluate the
zero case). -/
def fmt2 (q : Rat) : Str :=
  let c : Nat := (q * 100 + 1 / 2).floor.toNat
  natDigits (c / 100) ++ ['.'] ++
    (if c % 100 < 10 then ['0'] ++ natDigits (c % 100) else natDigits (c % 100))

/-- Average response time string (lines 362-366): the formatted mean over the
stored access records when any exist, otherwise the literal `0.00ms`. -/
def average_response_time (d : LogData) : Str :=
  if d.access ≠ [] then
    fmt2 ((d.access.map AccessEntry.response_time).sum / (d.access.length : Rat)) ++ "ms".data
  else "0.00ms".data

/-- Python `max` over a list (defined on the guarded non-empty branch). -/
def listMax : List Rat → Rat
  | [] => 0
  | x :: t => t.foldl (fun a b => if a < b then b else a) x

/-- Python `min` over a list (defined on the guarded non-empty branch). -/
def listMin : List Rat → Rat
  | [] => 0
  | x :: t => t.foldl (fun a b => if b < a then b else a) x

/-- Response-time statistics (lines 406-412): average, maximum and minimum,
all zero when no response times were collected. -/
def response_stats (r : AnalysisResult) : Rat × Rat × Rat :=
  if r.response_times ≠ [] then
    ((r.response_times.sum / (r.response_times.length : Rat)),
      listMax r.response_times, listMin r.response_times)
  else (0, 0, 0)

/-- Stable descending insertion by count: the new pair goes after every pair
with a greater-or-equal count, modelling Python `sorted(key=count,
reverse=True)` which is stable. -/
def insertDesc (x : Str × Nat) : List (Str × Nat) → List (Str × Nat)
  | [] => [x]
  | y :: t => if y.2 < x.2 then x :: y :: t else y :: insertDesc x t

/-- Stable sort of an association list by count, descending. -/
def sortByCountDesc (l : List (Str × Nat)) : List (Str × Nat) :=
  l.foldl (fun acc x => insertDesc x acc) []

/-- Top-10 user ranking (lines 396-399). -/
def top_users (r : AnalysisResult) : List (Str × Nat) := (sortByCountDesc r.users).take 10

/-- Top-5 download ranking (lines 388-389). -/
def top_downloads (r : AnalysisResult) : List (Str × Nat) :=
  (sortByCountDesc r.download_stats).take 5

/-- Top-5 handler ranking (line 377). -/
def top_handlers (r : AnalysisResult) : List (Str × Nat) :=
  (sortByCountDesc r.handlers).take 5

deriving instance DecidableEq for Except

/-! ## Basic lemmas about the map model -/

theorem alookupN_bump {α : Type} [DecidableEq α] (k k2 : α) (m : List (α × Nat)) :
    alookupN k2 (bump k m) = alookupN k2 m + (if k2 = k then 1 else 0) := by
  induction m with
  | nil =>
    by_cases h : k2 = k
    · subst h; simp [bump, alookupN, alookup]
    · have h3 : ¬ k = k2 := fun hh => h hh.symm
      simp [bump, alookupN, alookup, h, h3]
  | cons p t ih =>
    obtain ⟨a, v⟩ := p
    by_cases hak : a = k
    · subst hak
      by_cases h2 : a = k2
      · subst h2; simp [bump, alookupN, alookup]
      · have h3 : ¬ k2 = a := fun hh => h2 hh.symm
        simp [bump, alookupN, alookup, h2, h3]
    · by_cases h2 : a = k2
      · subst h2
        simp [bump, alookupN, alookup, hak]
      · have hb : bump k ((a, v) :: t) = (a, v) :: bump k t := by simp [bump, hak]
        rw [hb]
        simp only [alookupN, alookup, if_neg h2]
        exact ih

/-! ## Characterizations of one `analyze_logs` iteration per projection -/

theorem updHandlers_chr (r : AnalysisResult) (le : LEntry) :
    updHandlers r le =
      (match handlerKeyOf le with
       | some p => { r with handlers := bump p r.handlers }
       | none => r) := rfl

theorem updHandlers_time (r : AnalysisResult) (le : LEntry) :
    (updHandlers r le).time_distribution = r.time_distribution := by
  unfold updHandlers; cases handlerKeyOf le <;> rfl

theorem updHandlers_request_types (r : AnalysisResult) (le : LEntry) :
    (updHandlers r le).request_types = r.request_types := by
  unfold updHandlers; cases handlerKeyOf le <;> rfl

theorem updHandlers_status_codes (r : AnalysisResult) (le : LEntry) :
    (updHandlers r le).status_codes = r.status_codes := by
  unfold updHandlers; cases handlerKeyOf le <;> rfl

theorem updHandlers_ip_activities (r : AnalysisResult) (le : LEntry) :
    (updHandlers r le).ip_activities = r.ip_activities := by
  unfold updHandlers; cases handlerKeyOf le <;> rfl

theorem updHandlers_log_levels (r : AnalysisResult) (le : LEntry) :
    (updHandlers r le).log_levels = r.log_levels := by
  unfold updHandlers; cases handlerKeyOf le <;> rfl

theorem updHandlers_user_actions (r : AnalysisResult) (le : LEntry) :
    (updHandlers r le).user_actions = r.user_actions := by
  unfold updHandlers; cases handlerKeyOf le <;> rfl

theorem updHandlers_protocols (r : AnalysisResult) (le : LEntry) :
    (updHandlers r le).protocols = r.protocols := by
  unfold updHandlers; cases handlerKeyOf le <;> rfl

theorem updHandlers_security (r : AnalysisResult) (le : LEntry) :
    (updHandlers r le).security_events = r.security_events := by
  unfold updHandlers; cases handlerKeyOf le <;> rfl

theorem updHandlers_file_types (r : AnalysisResult) (le : LEntry) :
    (updHandlers r le).file_types = r.file_types := by
  unfold updHandlers; cases handlerKeyOf le <;> rfl

theorem updHandlers_users (r : AnalysisResult) (le : LEntry) :
    (updHandlers r le).users = r.users := by
  unfold updHandlers; cases handlerKeyOf le <;> rfl

theorem updHandlers_download_stats (r : AnalysisResult) (le : LEntry) :
    (updHandlers r le).download_stats = r.download_stats := by
  unfold updHandlers; cases handlerKeyOf le <;> rfl

theorem updHandlers_response_times (r : AnalysisResult) (le : LEntry) :
    (updHandlers r le).response_times = r.response_times := by
  unfold updHandlers; cases handlerKeyOf le <;> rfl

theorem updHandlers_handlers (r : AnalysisResult) (le : LEntry) (k : Str) :
    alookupN k (updHandlers r le).handlers
      = alookupN k r.handlers +
        (match handlerKeyOf le with
         | some p => if k = p then 1 else 0
         | none => 0) := by
  unfold updHandlers
  cases handlerKeyOf le with
  | none => simp
  | some p => simp [alookupN_bump]

theorem userActionsUpd_eq (m : List (Str × List (Str × Nat))) : userActionsUpd m = m := rfl

theorem updAccess_time (r : AnalysisResult) (le : LEntry) :
    (updAccess r le).time_distribution = r.time_distribution := by cases le <;> rfl

theorem updAccess_log_levels (r : AnalysisResult) (le : LEntry) :
    (updAccess r le).log_levels = r.log_levels := by cases le <;> rfl

theorem updAccess_handlers (r : AnalysisResult) (le : LEntry) :
    (updAccess r le).handlers = r.handlers := by cases le <;> rfl

theorem updAccess_security (r : AnalysisResult) (le : LEntry) :
    (updAccess r le).security_events = r.security_events := by cases le <;> rfl

theorem updAccess_users (r : AnalysisResult) (le : LEntry) :
    (updAccess r le).users = r.users := by cases le <;> rfl

theorem updAccess_user_actions (r : AnalysisResult) (le : LEntry) :
    (updAccess r le).user_actions = r.user_actions := by cases le <;> rfl

theorem updAccess_response_times (r : AnalysisResult) (le : LEntry) :
    (updAccess r le).response_times = r.response_times := by cases le <;> rfl

theorem updAccess_interface (r : AnalysisResult) (le : LEntry) :
    (updAccess r le).interface_response_times = r.interface_response_times := by
  cases le <;> rfl

/-- List-level characterization: the whole iteration bumps `time_distribution`
at the record's hour. -/
theorem analyze_entry_time (r : AnalysisResult) (le : LEntry) :
    (analyze_entry r le).time_distribution = bump le.timestampOf.hour r.time_distribution := by
  show (updSecurity (updHandlers (updLevel (updAccess (updTime r le) le) le) le) le).time_distribution = _
  have h1 : (updSecurity (updHandlers (updLevel (updAccess (updTime r le) le) le) le) le).time_distribution
      = (updHandlers (updLevel (updAccess (updTime r le) le) le) le).time_distribution := rfl
  rw [h1, updHandlers_time]
  have h2 : (updLevel (updAccess (updTime r le) le) le).time_distribution
      = (updAccess (updTime r le) le).time_distribution := rfl
  rw [h2, updAccess_time]
  rfl

theorem analyze_entry_log_levels (r : AnalysisResult) (le : LEntry) :
    (analyze_entry r le).log_levels = bump le.levelD r.log_levels := by
  show (updSecurity (updHandlers (updLevel (updAccess (updTime r le) le) le) le) le).log_levels = _
  have h1 : (updSecurity (updHandlers (updLevel (updAccess (updTime r le) le) le) le) le).log_levels
      = (updHandlers (updLevel (updAccess (updTime r le) le) le) le).log_levels := rfl
  rw [h1, updHandlers_log_levels]
  have h2 : (updLevel (updAccess (updTime r le) le) le).log_levels
      = bump le.levelD (updAccess (updTime r le) le).log_levels := rfl
  rw [h2, updAccess_log_levels]
  have h3 : (updTime r le).log_levels = r.log_levels := rfl
  rw [h3]

theorem analyze_entry_security (r : AnalysisResult) (le : LEntry) :
    (analyze_entry r le).security_events
      = r.security_events ++ (secEventOf le).toList := by
  show (updSecurity (updHandlers (updLevel (updAccess (updTime r le) le) le) le) le).security_events = _
  have h1 : (updSecurity (updHandlers (updLevel (updAccess (updTime r le) le) le) le) le).security_events
      = (updHandlers (updLevel (updAccess (updTime r le) le) le) le).security_events
        ++ (secEventOf le).toList := rfl
  rw [h1, updHandlers_security]
  have h2 : (updLevel (updAccess (updTime r le) le) le).security_events
      = (updAccess (updTime r le) le).security_events := rfl
  rw [h2, updAccess_security]
  rfl

theorem analyze_entry_users (r : AnalysisResult) (le : LEntry) :
    (analyze_entry r le).users = r.users := by
  show (updSecurity (updHandlers (updLevel (updAccess (updTime r le) le) le) le) le).users = _
  have h1 : (updSecurity (updHandlers (updLevel (updAccess (updTime r le) le) le) le) le).users
      = (updHandlers (updLevel (updAccess (updTime r le) le) le) le).users := rfl
  rw [h1, updHandlers_users]
  have h2 : (updLevel (updAccess (updTime r le) le) le).users
      = (updAccess (updTime r le) le).users := rfl
  rw [h2, updAccess_users]
  rfl

theorem analyze_entry_user_actions (r : AnalysisResult) (le : LEntry) :
    (analyze_entry r le).user_actions = r.user_actions := by
  show (updSecurity (updHandlers (updLevel (updAccess (updTime r le) le) le) le) le).user_actions = _
  have h1 : (updSecurity (updHandlers (updLevel (updAccess (updTime r le) le) le) le) le).user_actions
      = (updHandlers (updLevel (updAccess (updTime r le) le) le) le).user_actions := rfl
  rw [h1, updHandlers_user_actions]
  have h2 : (updLevel (updAccess (updTime r le) le) le).user_actions
      = (updAccess (updTime r le) le).user_actions := rfl
  rw [h2, updAccess_user_actions]
  rfl

theorem analyze_entry_response_times (r : AnalysisResult) (le : LEntry) :
    (analyze_entry r le).response_times = r.response_times := by
  show (updSecurity (updHandlers (updLevel (updAccess (updTime r le) le) le) le) le).response_times = _
  have h1 : (updSecurity (updHandlers (updLevel (updAccess (updTime r le) le) le) le) le).response_times
      = (updHandlers (updLevel (updAccess (updTime r le) le) le) le).response_times := rfl
  rw [h1, updHandlers_response_times]
  have h2 : (updLevel (updAccess (updTime r le) le) le).response_times
      = (updAccess (updTime r le) le).response_times := rfl
  rw [h2, updAccess_response_times]
  rfl

theorem analyze_entry_request_types (r : AnalysisResult) (le : LEntry) :
    (analyze_entry r le).request_types =
      (match le with
       | LEntry.acc e => bump e.method r.request_types
       | _ => r.request_types) := by
  have h1 : (analyze_entry r le).request_types
      = (updAccess (updTime r le) le).request_types := by
    have ha : (analyze_entry r le).request_types
        = (updHandlers (updLevel (updAccess (updTime r le) le) le) le).request_types := rfl
    rw [ha, updHandlers_request_types]
    rfl
  rw [h1]
  cases le <;> rfl

theorem analyze_entry_status_codes (r : AnalysisResult) (le : LEntry) :
    (analyze_entry r le).status_codes =
      (match le with
       | LEntry.acc e => bump e.status_code r.status_codes
       | _ => r.status_codes) := by
  have h1 : (analyze_entry r le).status_codes
      = (updAccess (updTime r le) le).status_codes := by
    have ha : (analyze_entry r le).status_codes
        = (updHandlers (updLevel (updAccess (updTime r le) le) le) le).status_codes := rfl
    rw [ha, updHandlers_status_codes]
    rfl
  rw [h1]
  cases le <;> rfl

theorem analyze_entry_ip_activities (r : AnalysisResult) (le : LEntry) :
    (analyze_entry r le).ip_activities =
      (match le with
       | LEntry.acc e => bump e.ip r.ip_activities
       | _ => r.ip_activities) := by
  have h1 : (analyze_entry r le).ip_activities
      = (updAccess (updTime r le) le).ip_activities := by
    have ha : (analyze_entry r le).ip_activities
        = (updHandlers (updLevel (updAccess (updTime r le) le) le) le).ip_activities := rfl
    rw [ha, updHandlers_ip_activities]
    rfl
  rw [h1]
  cases le <;> rfl

theorem analyze_entry_protocols (r : AnalysisResult) (le : LEntry) :
    (analyze_entry r le).protocols =
      (match le with
       | LEntry.acc e => bump e.protocol r.protocols
       | _ => r.protocols) := by
  have h1 : (analyze_entry r le).protocols
      = (updAccess (updTime r le) le).protocols := by
    have ha : (analyze_entry r le).protocols
        = (updHandlers (updLevel (updAccess (updTime r le) le) le) le).protocols := rfl
    rw [ha, updHandlers_protocols]
    rfl
  rw [h1]
  cases le <;> rfl

theorem analyze_entry_file_types (r : AnalysisResult) (le : LEntry) :
    (analyze_entry r le).file_types =
      (match le with
       | LEntry.acc e =>
         if containsSub e.path wDownload = true then bump (extKeyOf e.path) r.file_types
         else r.file_types
       | _ => r.file_types) := by
  have h1 : (analyze_entry r le).file_types
      = (updAccess (updTime r le) le).file_types := by
    have ha : (analyze_entry r le).file_types
        = (updHandlers (updLevel (updAccess (updTime r le) le) le) le).file_types := rfl
    rw [ha, updHandlers_file_types]
    rfl
  rw [h1]
  cases le <;> rfl

theorem analyze_entry_download_stats (r : AnalysisResult) (le : LEntry) :
    (analyze_entry r le).download_stats =
      (match le with
       | LEntry.acc e =>
         if containsSub e.path wDownload = true then bump (fileNameOf e.path) r.download_stats
         else r.download_stats
       | _ => r.download_stats) := by
  have h1 : (analyze_entry r le).download_stats
      = (updAccess (updTime r le) le).download_stats := by
    have ha : (analyze_entry r le).download_stats
        = (updHandlers (updLevel (updAccess (updTime r le) le) le) le).download_stats := rfl
    rw [ha, updHandlers_download_stats]
    rfl
  rw [h1]
  cases le <;> rfl

theorem analyze_entry_handlers (r : AnalysisResult) (le : LEntry) :
    (analyze_entry r le).handlers =
      (match handlerKeyOf le with
       | some p => bump p r.handlers
       | none => r.handlers) := by
  have hx : (updLevel (updAccess (updTime r le) le) le).handlers = r.handlers := by
    have h2 : (updLevel (updAccess (updTime r le) le) le).handlers
        = (updAccess (updTime r le) le).handlers := rfl
    rw [h2, updAccess_handlers]
    rfl
  have h1 : (analyze_entry r le).handlers
      = (updHandlers (updLevel (updAccess (updTime r le) le) le) le).handlers := rfl
  rw [h1]
  unfold updHandlers
  cases hk : handlerKeyOf le <;> simp [hk, hx]

/-! ## Per-record contribution functions (deltas) -/

def timeDelta (le : LEntry) (k : Nat) : Nat := if k = le.timestampOf.hour then 1 else 0

def methodDelta (le : LEntry) (k : Str) : Nat :=
  match le with
  | LEntry.acc e => if k = e.method then 1 else 0
  | _ => 0

def statusDelta (le : LEntry) (k : Nat) : Nat :=
  match le with
  | LEntry.acc e => if k = e.status_code then 1 else 0
  | _ => 0

def ipDelta (le : LEntry) (k : Str) : Nat :=
  match le with
  | LEntry.acc e => if k = e.ip then 1 else 0
  | _ => 0

def protocolDelta (le : LEntry) (k : Str) : Nat :=
  match le with
  | LEntry.acc e => if k = e.protocol then 1 else 0
  | _ => 0

def levelDelta (le : LEntry) (k : Str) : Nat := if k = le.levelD then 1 else 0

def handlerDelta (le : LEntry) (k : Str) : Nat :=
  match handlerKeyOf le with
  | some p => if k = p then 1 else 0
  | none => 0

def fileTypeDelta (le : LEntry) (k : Str) : Nat :=
  match le with
  | LEntry.acc e =>
    if containsSub e.path wDownload = true then (if k = extKeyOf e.path then 1 else 0) else 0
  | _ => 0

def downloadDelta (le : LEntry) (k : Str) : Nat :=
  match le with
  | LEntry.acc e =>
    if containsSub e.path wDownload = true then (if k = fileNameOf e.path then 1 else 0) else 0
  | _ => 0

def userDelta (e : AppEntry) (k : Str) : Nat :=
  match extract_user e.message with
  | some u => if k = u then 1 else 0
  | none => 0

theorem step_time (r : AnalysisResult) (le : LEntry) (k : Nat) :
    alookupN k (analyze_entry r le).time_distribution
      = alookupN k r.time_distribution + timeDelta le k := by
  rw [analyze_entry_time, alookupN_bump]; rfl

theorem step_log_levels (r : AnalysisResult) (le : LEntry) (k : Str) :
    alookupN k (analyze_entry r le).log_levels
      = alookupN k r.log_levels + levelDelta le k := by
  rw [analyze_entry_log_levels, alookupN_bump]; rfl

theorem step_request_types (r : AnalysisResult) (le : LEntry) (k : Str) :
    alookupN k (analyze_entry r le).request_types
      = alookupN k r.request_types + methodDelta le k := by
  rw [analyze_entry_request_types]
  cases le with
  | acc e => rw [alookupN_bump]; rfl
  | app e => rfl
  | err e => rfl

theorem step_status_codes (r : AnalysisResult) (le : LEntry) (k : Nat) :
    alookupN k (analyze_entry r le).status_codes
      = alookupN k r.status_codes + statusDelta le k := by
  rw [analyze_entry_status_codes]
  cases le with
  | acc e => rw [alookupN_bump]; rfl
  | app e => rfl
  | err e => rfl

theorem step_ip_activities (r : AnalysisResult) (le : LEntry) (k : Str) :
    alookupN k (analyze_entry r le).ip_activities
      = alookupN k r.ip_activities + ipDelta le k := by
  rw [analyze_entry_ip_activities]
  cases le with
  | acc e => rw [alookupN_bump]; rfl
  | app e => rfl
  | err e => rfl

theorem step_protocols (r : AnalysisResult) (le : LEntry) (k : Str) :
    alookupN k (analyze_entry r le).protocols
      = alookupN k r.protocols + protocolDelta le k := by
  rw [analyze_entry_protocols]
  cases le with
  | acc e => rw [alookupN_bump]; rfl
  | app e => rfl
  | err e => rfl

theorem step_handlers (r : AnalysisResult) (le : LEntry) (k : Str) :
    alookupN k (analyze_entry r le).handlers
      = alookupN k r.handlers + handlerDelta le k := by
  rw [analyze_entry_handlers]
  cases hk : handlerKeyOf le
  · simp [handlerDelta, hk]
  · simp [handlerDelta, hk, alookupN_bump]

theorem step_file_types (r : AnalysisResult) (le : LEntry) (k : Str) :
    alookupN k (analyze_entry r le).file_types
      = alookupN k r.file_types + fileTypeDelta le k := by
  rw [analyze_entry_file_types]
  cases le with
  | acc e =>
    by_cases hd : containsSub e.path wDownload = true
    · simp [hd, fileTypeDelta, alookupN_bump]
    · simp [hd, fileTypeDelta]
  | app e => rfl
  | err e => rfl

theorem step_download_stats (r : AnalysisResult) (le : LEntry) (k : Str) :
    alookupN k (analyze_entry r le).download_stats
      = alookupN k r.download_stats + downloadDelta le k := by
  rw [analyze_entry_download_stats]
  cases le with
  | acc e =>
    by_cases hd : containsSub e.path wDownload = true
    · simp [hd, downloadDelta, alookupN_bump]
    · simp [hd, downloadDelta]
  | app e => rfl
  | err e => rfl

/-! ## Folding the loop: counts are sums of per-record contributions -/

theorem analyzeList_cons (r : AnalysisResult) (le : LEntry) (t : List LEntry) :
    analyzeList r (le :: t) = analyzeList (analyze_entry r le) t := rfl

theorem analyzeList_count {K : Type} [DecidableEq K]
    (P : AnalysisResult → List (K × Nat)) (δ : LEntry → K → Nat)
    (hstep : ∀ r le k, alookupN k (P (analyze_entry r le)) = alookupN k (P r) + δ le k) :
    ∀ (l : List LEntry) (r : AnalysisResult) (k : K),
      alookupN k (P (analyzeList r l)) = alookupN k (P r) + (l.map (fun le => δ le k)).sum := by
  intro l
  induction l with
  | nil => intro r k; simp [analyzeList]
  | cons le t ih =>
    intro r k
    rw [analyzeList_cons, ih, hstep, List.map_cons, List.sum_cons]
    omega

theorem analyzeList_perm_count {K : Type} [DecidableEq K]
    (P : AnalysisResult → List (K × Nat)) (δ : LEntry → K → Nat)
    (hstep : ∀ r le k, alookupN k (P (analyze_entry r le)) = alookupN k (P r) + δ le k)
    {l1 l2 : List LEntry} (hp : l1.Perm l2) (r : AnalysisResult) (k : K) :
    alookupN k (P (analyzeList r l1)) = alookupN k (P (analyzeList r l2)) := by
  rw [analyzeList_count P δ hstep, analyzeList_count P δ hstep]
  have hs := (hp.map (fun le => δ le k)).sum_eq
  omega

theorem analyzeList_users (l : List LEntry) :
    ∀ r : AnalysisResult, (analyzeList r l).users = r.users := by
  induction l with
  | nil => intro r; rfl
  | cons le t ih =>
    intro r
    rw [analyzeList_cons, ih, analyze_entry_users]

theorem analyzeList_user_actions (l : List LEntry) :
    ∀ r : AnalysisResult, (analyzeList r l).user_actions = r.user_actions := by
  induction l with
  | nil => intro r; rfl
  | cons le t ih =>
    intro r
    rw [analyzeList_cons, ih, analyze_entry_user_actions]

theorem analyzeList_response_times (l : List LEntry) :
    ∀ r : AnalysisResult, (analyzeList r l).response_times = r.response_times := by
  induction l with
  | nil => intro r; rfl
  | cons le t ih =>
    intro r
    rw [analyzeList_cons, ih, analyze_entry_response_times]

/-- Security events are appended in arrival order. -/
theorem analyzeList_security (l : List LEntry) :
    ∀ r : AnalysisResult,
      (analyzeList r l).security_events = r.security_events ++ l.filterMap secEventOf := by
  induction l with
  | nil => intro r; simp [analyzeList]
  | cons le t ih =>
    intro r
    rw [analyzeList_cons, ih, analyze_entry_security]
    cases hs : secEventOf le with
    | none => simp [List.filterMap_cons, hs]
    | some ev => simp [List.filterMap_cons, hs]

/-! ## The end-to-end snapshot over stored records -/

/-- Accumulations performed at parse time (lines 91-97 and 127-131),
expressed over the stored record lists: response times and per-interface
response times in access arrival order, user tallies in application arrival
order. -/
def parsePhase (d : LogData) : AnalysisResult :=
  { initResult with
    users := usersOf d.application
    response_times := d.access.map AccessEntry.response_time
    interface_response_times :=
      d.access.foldl (fun m e => appendVal (stripQuery e.path) e.response_time m) [] }

/-- The analysis snapshot produced for stored records: the parse-phase
accumulations followed by the `analyze_logs` fold. -/
def snapshotOf (d : LogData) : AnalysisResult := analyzeList (parsePhase d) (entriesOf d)

theorem usersOf_go (l : List AppEntry) :
    ∀ (m : List (Str × Nat)) (k : Str),
      alookupN k
          (l.foldl
            (fun m e =>
              match extract_user e.message with
              | some u => bump u m
              | none => m)
            m)
        = alookupN k m + (l.map (fun e => userDelta e k)).sum := by
  induction l with
  | nil => intro m k; simp
  | cons e t ih =>
    intro m k
    rw [List.foldl_cons, List.map_cons, List.sum_cons]
    cases hu : extract_user e.message with
    | none => simp only [hu]; rw [ih]; simp [userDelta, hu]
    | some u => simp only [hu]; rw [ih, alookupN_bump]; simp [userDelta, hu]; omega

theorem usersOf_count (l : List AppEntry) (k : Str) :
    alookupN k (usersOf l) = (l.map (fun e => userDelta e k)).sum := by
  have h := usersOf_go l [] k
  simpa [usersOf, alookupN, alookup] using h

theorem entriesOf_perm {d1 d2 : LogData}
    (h1 : d1.access.Perm d2.access) (h2 : d1.application.Perm d2.application)
    (h3 : d1.error.Perm d2.error) : (entriesOf d1).Perm (entriesOf d2) :=
  ((h1.map LEntry.acc).append (h2.map LEntry.app)).append (h3.map LEntry.err)

theorem analyzeList_perm_count2 {K : Type} [DecidableEq K]
    (P : AnalysisResult → List (K × Nat)) (δ : LEntry → K → Nat)
    (hstep : ∀ r le k, alookupN k (P (analyze_entry r le)) = alookupN k (P r) + δ le k)
    {l1 l2 : List LEntry} (hp : l1.Perm l2) {r1 r2 : AnalysisResult}
    (hr : ∀ k, alookupN k (P r1) = alookupN k (P r2)) (k : K) :
    alookupN k (P (analyzeList r1 l1)) = alookupN k (P (analyzeList r2 l2)) := by
  rw [analyzeList_count P δ hstep, analyzeList_count P δ hstep, hr]
  have hs := (hp.map (fun le => δ le k)).sum_eq
  omega

/-- C5: aggregating parsed records in any permutation of arrival order yields
identical count-valued projections (time_distribution, request_types,
status_codes, ip_activities, log_levels, handlers, user_actions, protocols,
file_types, users, download_stats — compared as key lookups), while the
sequence-valued projections response_times and security_events list their
entries in original arrival order. -/
theorem claim_C5 (d1 d2 : LogData)
    (hacc : d1.access.Perm d2.access)
    (happ : d1.application.Perm d2.application)
    (herr : d1.error.Perm d2.error) :
    ((∀ k, alookupN k (snapshotOf d1).time_distribution
        = alookupN k (snapshotOf d2).time_distribution) ∧
     (∀ k, alookupN k (snapshotOf d1).request_types
        = alookupN k (snapshotOf d2).request_types) ∧
     (∀ k, alookupN k (snapshotOf d1).status_codes
        = alookupN k (snapshotOf d2).status_codes) ∧
     (∀ k, alookupN k (snapshotOf d1).ip_activities
        = alookupN k (snapshotOf d2).ip_activities) ∧
     (∀ k, alookupN k (snapshotOf d1).log_levels
        = alookupN k (snapshotOf d2).log_levels) ∧
     (∀ k, alookupN k (snapshotOf d1).handlers
        = alookupN k (snapshotOf d2).handlers) ∧
     ((snapshotOf d1).user_actions = [] ∧ (snapshotOf d2).user_actions = []) ∧
     (∀ k, alookupN k (snapshotOf d1).protocols
        = alookupN k (snapshotOf d2).protocols) ∧
     (∀ k, alookupN k (snapshotOf d1).file_types
        = alookupN k (snapshotOf d2).file_types) ∧
     (∀ k, alookupN k (snapshotOf d1).users
        = alookupN k (snapshotOf d2).users) ∧
     (∀ k, alookupN k (snapshotOf d1).download_stats
        = alookupN k (snapshotOf d2).download_stats)) ∧
    (snapshotOf d1).response_times = d1.access.map AccessEntry.response_time ∧
    (snapshotOf d2).response_times = d2.access.map AccessEntry.response_time ∧
    (snapshotOf d1).security_events = (entriesOf d1).filterMap secEventOf ∧
    (snapshotOf d2).security_events = (entriesOf d2).filterMap secEventOf := by
  have hperm := entriesOf_perm hacc happ herr
  unfold snapshotOf
  refine ⟨⟨?_, ?_, ?_, ?_, ?_, ?_, ⟨?_, ?_⟩, ?_, ?_, ?_, ?_⟩, ?_, ?_, ?_, ?_⟩
  · intro k
    exact @analyzeList_perm_count2 _ _ (fun r => r.time_distribution) timeDelta step_time
      _ _ hperm (parsePhase d1) (parsePhase d2) (fun _ => rfl) k
  · intro k
    exact @analyzeList_perm_count2 _ _ (fun r => r.request_types) methodDelta step_request_types
      _ _ hperm (parsePhase d1) (parsePhase d2) (fun _ => rfl) k
  · intro k
    exact @analyzeList_perm_count2 _ _ (fun r => r.status_codes) statusDelta step_status_codes
      _ _ hperm (parsePhase d1) (parsePhase d2) (fun _ => rfl) k
  · intro k
    exact @analyzeList_perm_count2 _ _ (fun r => r.ip_activities) ipDelta step_ip_activities
      _ _ hperm (parsePhase d1) (parsePhase d2) (fun _ => rfl) k
  · intro k
    exact @analyzeList_perm_count2 _ _ (fun r => r.log_levels) levelDelta step_log_levels
      _ _ hperm (parsePhase d1) (parsePhase d2) (fun _ => rfl) k
  · intro k
    exact @analyzeList_perm_count2 _ _ (fun r => r.handlers) handlerDelta step_handlers
      _ _ hperm (parsePhase d1) (parsePhase d2) (fun _ => rfl) k
  · rw [analyzeList_user_actions]; rfl
  · rw [analyzeList_user_actions]; rfl
  · intro k
    exact @analyzeList_perm_count2 _ _ (fun r => r.protocols) protocolDelta step_protocols
      _ _ hperm (parsePhase d1) (parsePhase d2) (fun _ => rfl) k
  · intro k
    exact @analyzeList_perm_count2 _ _ (fun r => r.file_types) fileTypeDelta step_file_types
      _ _ hperm (parsePhase d1) (parsePhase d2) (fun _ => rfl) k
  · intro k
    have e1 : (analyzeList (parsePhase d1) (entriesOf d1)).users = usersOf d1.application := by
      rw [analyzeList_users]; rfl
    have e2 : (analyzeList (parsePhase d2) (entriesOf d2)).users = usersOf d2.application := by
      rw [analyzeList_users]; rfl
    rw [e1, e2, usersOf_count, usersOf_count]
    exact (happ.map (fun e => userDelta e k)).sum_eq
  · intro k
    exact @analyzeList_perm_count2 _ _ (fun r => r.download_stats) downloadDelta step_download_stats
      _ _ hperm (parsePhase d1) (parsePhase d2) (fun _ => rfl) k
  · rw [analyzeList_response_times]; rfl
  · rw [analyzeList_response_times]; rfl
  · rw [analyzeList_security]; rfl
  · rw [analyzeList_security]; rfl

/-! ## Concrete inputs used by witnesses and counterexamples -/

def tsW : Timestamp := { year := 2025, month := 1, day := 1, hour := 10, minute := 0, second := 0 }

def accW1 : AccessEntry :=
  { timestamp := tsW
    ip := ("10.0.0.1".data)
    request_id := ("r1".data)
    method := ("GET".data)
    path := ("/download/a.txt".data)
    status_code := 200
    response_time := 3
    user_agent := ("UA".data)
    protocol := wHttp }

def accW2 : AccessEntry :=
  { accW1 with request_id := ("r2".data), path := ("/index".data), status_code := 404 }

def appW1 : AppEntry :=
  { timestamp := tsW
    log_level := wError
    module := ("auth".data)
    ip := ("1.2.3.4".data)
    request_id := ("r3".data)
    message := ("用户 BOB 上传文件 x.exe 失败 高危文件类型".data)
    context := ("path=/upload".data) }

def dW1 : LogData := { access := [accW1, accW2], application := [appW1], error := [] }

def dW2 : LogData := { access := [accW2, accW1], application := [appW1], error := [] }

def entryPDF : AccessEntry := { accW1 with path := ("/download/report.PDF".data) }

def entrypdf : AccessEntry :=
  { accW1 with request_id := ("r2".data), path := ("/download/report.pdf".data) }

def entryNoDot : AccessEntry :=
  { accW1 with request_id := ("r3".data), path := ("/download/data".data) }

def c1Snapshot : AnalysisResult :=
  analyzeList initResult [LEntry.acc entryPDF, LEntry.acc entrypdf]

def c1SnapshotAll : AnalysisResult :=
  analyzeList initResult [LEntry.acc entryPDF, LEntry.acc entrypdf, LEntry.acc entryNoDot]

def c2Data : LogData := { access := [entryPDF], application := [], error := [] }

def lineGoodA : Str :=
  "[2025-01-01 10:00:00] [10.0.0.1] [rid1] \"GET /download/file.pdf\" 200 12.50ms \"Mozilla/5.0\"".data

def lineGoodB : Str :=
  "[2025-01-01 11:00:00] [10.0.0.2] [rid2] \"POST /upload\" 201 7.00ms \"curl/8.0\"".data

def lineBadTs : Str :=
  "[2025-99-99 10:00:00] [10.0.0.1] [rid3] \"GET /a\" 200 12.5ms \"UA\"".data

def lineEmptyReq : Str :=
  "[2025-01-01 10:00:00] [10.0.0.1] [abc123] \"\" 200 12.50ms \"Mozilla/5.0\"".data

def lineGarbage1 : Str := "hello world, not a log line".data

def lineGarbage2 : Str := "2025-01-01 10:00:00 missing brackets".data

def demoAccessLines : List Str := [lineGoodA, lineGarbage1, lineGoodB, lineGarbage2]

def lineApp1 : Str :=
  "[2025-01-01 11:00:00] [INFO] [auth] [1.2.3.4] [rid9] 用户 ALICE 登录成功 [ctx]".data

def lineApp2 : Str :=
  "[2025-01-01 11:00:00] [INFO] [auth] [1.2.3.4] [rid9] 登录成功 用户 ALICE [ctx]".data

def demoAppLines : List Str := [lineApp1, lineGarbage1]

def eApp1 : AppEntry :=
  { timestamp := { year := 2025, month := 1, day := 1, hour := 11, minute := 0, second := 0 }
    log_level := ("INFO".data)
    module := ("auth".data)
    ip := ("1.2.3.4".data)
    request_id := ("rid9".data)
    message := ("用户 ALICE 登录成功".data)
    context := ("ctx".data) }

def eApp2 : AppEntry := { eApp1 with message := ("登录成功 用户 ALICE".data) }

def eSec : AppEntry :=
  { eApp1 with
    log_level := wError
    message := ("用户 ALICE 上传文件 virus.exe 失败 [高危文件类型]".data) }

/-! ## Claim C10 -/

/-- C10: `parse_access_log` is not total on lines matching the access regular
expression: on a line whose quoted request string is empty, the regex matches
but extracting the HTTP method indexes into an empty token list and raises
`IndexError` instead of returning a record or skipping the line. -/
theorem claim_C10 :
    reM (reFuel lineEmptyReq) accessPattern lineEmptyReq ≠ none ∧
    parse_access_log lineEmptyReq = Except.error PyErr.indexError := by
  constructor
  · decide
  · decide

/-! ## Claim C7 -/

/-- C7: aggregating zero records yields a valid snapshot in which every
mapping projection is empty, the report shows zero total requests and the
average response-time string is the literal zero value, and the
average/max/min computations take the guarded zero branch instead of dividing
by zero or reducing an empty sequence. -/
theorem claim_C7 :
    run_analysis [] [] [] = Except.ok (analyze_logs initAnalyzer) ∧
    (analyze_logs initAnalyzer).analysis_result.time_distribution = [] ∧
    (analyze_logs initAnalyzer).analysis_result.request_types = [] ∧
    (analyze_logs initAnalyzer).analysis_result.status_codes = [] ∧
    (analyze_logs initAnalyzer).analysis_result.ip_activities = [] ∧
    (analyze_logs initAnalyzer).analysis_result.log_levels = [] ∧
    (analyze_logs initAnalyzer).analysis_result.handlers = [] ∧
    (analyze_logs initAnalyzer).analysis_result.user_actions = [] ∧
    (analyze_logs initAnalyzer).analysis_result.protocols = [] ∧
    (analyze_logs initAnalyzer).analysis_result.security_events = [] ∧
    (analyze_logs initAnalyzer).analysis_result.file_types = [] ∧
    (analyze_logs initAnalyzer).analysis_result.users = [] ∧
    (analyze_logs initAnalyzer).analysis_result.download_stats = [] ∧
    (analyze_logs initAnalyzer).analysis_result.response_times = [] ∧
    (analyze_logs initAnalyzer).analysis_result.interface_response_times = [] ∧
    total_requests (analyze_logs initAnalyzer).analysis_result = 0 ∧
    average_response_time (analyze_logs initAnalyzer).log_data = ("0.00ms".data) ∧
    response_stats (analyze_logs initAnalyzer).analysis_result = (0, 0, 0) := by
  refine ⟨?_, ?_, ?_, ?_, ?_, ?_, ?_, ?_, ?_, ?_, ?_, ?_, ?_, ?_, ?_, ?_, ?_, ?_⟩ <;> decide

/-! ## Claim C1 -/

/-- C1 counterexample: with one download of `/download/report.PDF` and one of
`/download/report.pdf`, the aggregator produces two distinct extension keys
with one count each; the key written in lowercase does not hold the combined
count 2 that the claim requires. -/
theorem claim_C1_counterexample :
    alookup ("PDF".data) c1Snapshot.file_types = some 1 ∧
    alookup ("pdf".data) c1Snapshot.file_types = some 1 ∧
    c1Snapshot.file_types ≠ [(("pdf".data : Str), 2)] := by
  decide

/-- C1 (amended): for every access record whose path contains the download
substring, the aggregator counts the file extension under the key taken from
the filename as written (case preserved, so `/download/report.PDF` counts
under `PDF` while `/download/report.pdf` counts under `pdf`), and a download
filename containing no dot is counted under the key `unknown`. -/
theorem claim_C1 :
    (∀ (r : AnalysisResult) (e : AccessEntry) (k : Str),
      containsSub e.path wDownload = true →
      alookupN k (analyze_entry r (LEntry.acc e)).file_types
        = alookupN k r.file_types + (if k = extKeyOf e.path then 1 else 0)) ∧
    extKeyOf ("/download/report.PDF".data) = ("PDF".data) ∧
    extKeyOf ("/download/report.pdf".data) = ("pdf".data) ∧
    extKeyOf ("/download/data".data) = wUnknown ∧
    alookup ("unknown".data) c1SnapshotAll.file_types = some 1 := by
  refine ⟨?_, by decide, by decide, by decide, by decide⟩
  intro r e k h
  have hs := step_file_types r (LEntry.acc e) k
  rw [hs]
  simp [fileTypeDelta, h]

/-- C1 witness: the amended statement applied at a concrete download record. -/
theorem claim_C1_witness :
    alookupN ("PDF".data) (analyze_entry initResult (LEntry.acc entryPDF)).file_types
      = alookupN ("PDF".data) initResult.file_types
        + (if ("PDF".data : Str) = extKeyOf entryPDF.path then 1 else 0) :=
  claim_C1.1 initResult entryPDF ("PDF".data) (by decide)

/-! ## Claim C2 -/

/-- C2 counterexample: an input consisting of a single access record yields a
non-empty log_levels mapping after aggregation — the access record is counted
under the empty-string level key, contradicting the claim that access records
contribute nothing. -/
theorem claim_C2_counterexample :
    (snapshotOf c2Data).log_levels = [(([] : Str), 1)] ∧
    (snapshotOf c2Data).log_levels ≠ [] := by
  constructor
  · decide
  · decide

theorem acc_levels_aux (l : List AccessEntry) :
    ∀ (r : AnalysisResult) (n : Nat),
      r.log_levels = [(([] : Str), n)] →
      (analyzeList r (l.map LEntry.acc)).log_levels = [(([] : Str), n + l.length)] := by
  induction l with
  | nil => intro r n h; simpa [analyzeList] using h
  | cons e t ih =>
    intro r n h
    rw [List.map_cons, analyzeList_cons]
    have hstep : (analyze_entry r (LEntry.acc e)).log_levels = [(([] : Str), n + 1)] := by
      rw [analyze_entry_log_levels, h]
      rfl
    rw [ih (analyze_entry r (LEntry.acc e)) (n + 1) hstep]
    simp [List.length_cons]
    omega

/-- C2 (amended): the log_levels projection counts the level strings of
application and error records, and it also counts every access record under
the empty-string key (the default of `entry.get('log_level', '')`): for an
input consisting solely of access records, log_levels maps the empty string
to the number of access records instead of being empty. -/
theorem claim_C2 (l : List AccessEntry) :
    (snapshotOf { access := l, application := [], error := [] }).log_levels
      = (if l = [] then [] else [(([] : Str), l.length)]) := by
  cases l with
  | nil => decide
  | cons e t =>
    rw [if_neg (by simp)]
    unfold snapshotOf
    have hent : entriesOf { access := e :: t, application := [], error := [] }
        = (e :: t).map LEntry.acc := by
      simp [entriesOf]
    rw [hent]
    have hpp : (parsePhase { access := e :: t, application := [], error := [] }).log_levels
        = [] := rfl
    rw [List.map_cons, analyzeList_cons]
    have hstep : (analyze_entry
        (parsePhase { access := e :: t, application := [], error := [] })
        (LEntry.acc e)).log_levels = [(([] : Str), 1)] := by
      rw [analyze_entry_log_levels, hpp]
      rfl
    rw [acc_levels_aux t _ 1 hstep]
    simp [List.length_cons]
    omega

/-- C2 witness: the amended statement evaluated at a one-record input. -/
theorem claim_C2_witness :
    (snapshotOf { access := [entryPDF], application := [], error := [] }).log_levels
      = (if [entryPDF] = ([] : List AccessEntry) then []
         else [(([] : Str), ([entryPDF] : List AccessEntry).length)]) :=
  claim_C2 [entryPDF]

/-! ## Claim C3 -/

/-- C3 counterexample: a three-line access input whose middle line matches the
access pattern but has a malformed timestamp makes the whole analysis run
abort with the propagated value error — no snapshot is produced from the
other two lines, contradicting the claim that only the bad line is skipped. -/
theorem claim_C3_counterexample :
    reM (reFuel lineBadTs) accessPattern lineBadTs ≠ none ∧
    run_analysis [lineGoodA, lineBadTs, lineGoodB] [] [] = Except.error PyErr.valueError := by
  constructor
  · decide
  · decide

/-- C3 (amended): a line whose fields match the category pattern but whose
timestamp is malformed raises a parse error that propagates through the
driver loop: the lines after it are never parsed, the run does not complete,
and no snapshot is produced (the route answers with an internal error
instead). -/
theorem claim_C3 :
    (∀ (st : Analyzer) (post : List Str),
      feedAll feed_access st (lineBadTs :: post) = Except.error PyErr.valueError) ∧
    run_analysis [lineGoodA, lineBadTs, lineGoodB] [] [] = Except.error PyErr.valueError := by
  constructor
  · intro st post
    have hp : parse_access_log lineBadTs = Except.error PyErr.valueError := by decide
    show (match feed_access st lineBadTs with
          | Except.error e => Except.error e
          | Except.ok st1 => feedAll feed_access st1 post) = Except.error PyErr.valueError
    have hf : feed_access st lineBadTs = Except.error PyErr.valueError := by
      unfold feed_access
      rw [hp]
    rw [hf]
  · decide

/-! ## Claim C8 -/

/-- Users projection of a feed result (the error side never occurs in the
statements below). -/
def usersResult : Except PyErr Analyzer → List (Str × Nat)
  | .ok st => st.analysis_result.users
  | .error _ => []

/-- Stored application record count of a feed result. -/
def appCountResult : Except PyErr Analyzer → Nat
  | .ok st => st.log_data.application.length
  | .error _ => 0

/-- C8 counterexample: an application line whose message contains the user
token with the username as its final token (no text after it) is parsed and
stored, yet the users projection stays empty — the username is not tallied,
contradicting the claim that the final-token case is included. -/
theorem claim_C8_counterexample :
    parse_application_log lineApp2 = Except.ok (some eApp2) ∧
    containsSub eApp2.message wYonghu = true ∧
    usersResult (feed_application initAnalyzer lineApp2) = [] ∧
    appCountResult (feed_application initAnalyzer lineApp2) = 1 := by
  refine ⟨by decide, by decide, by decide, by decide⟩

/-- C8 (amended): for an application-log message containing the user token,
the whitespace-delimited token following it is captured and tallied only when
a further space follows that token; when the username token is the final
token of the message, the search fails and the users projection is left
unchanged (the record itself is still stored). -/
theorem claim_C8 :
    (∀ (st : Analyzer) (line : Str) (e : AppEntry) (u : Str),
      parse_application_log line = Except.ok (some e) →
      extract_user e.message = some u →
      feed_application st line = Except.ok
        { st with
          log_data := { st.log_data with application := st.log_data.application ++ [e] }
          analysis_result :=
            { st.analysis_result with users := bump u st.analysis_result.users } }) ∧
    (∀ (st : Analyzer) (line : Str) (e : AppEntry),
      parse_application_log line = Except.ok (some e) →
      extract_user e.message = none →
      feed_application st line = Except.ok
        { st with
          log_data := { st.log_data with application := st.log_data.application ++ [e] } }) ∧
    extract_user ("用户 ALICE 登录".data) = some ("ALICE".data) ∧
    extract_user ("登录成功 用户 ALICE".data) = none := by
  refine ⟨?_, ?_, by decide, by decide⟩
  · intro st line e u hp hu
    unfold feed_application
    rw [hp]
    show (match extract_user e.message with
          | some u =>
            Except.ok
              { st with
                log_data :=
                  { st.log_data with application := st.log_data.application ++ [e] }
                analysis_result :=
                  { st.analysis_result with
                    users := bump u
                      st.analysis_result.users } }
          | none =>
            Except.ok
              { st with
                log_data :=
                  { st.log_data with application := st.log_data.application ++ [e] } }) = _
    rw [hu]
  · intro st line e hp hu
    unfold feed_application
    rw [hp]
    show (match extract_user e.message with
          | some u =>
            Except.ok
              { st with
                log_data :=
                  { st.log_data with application := st.log_data.application ++ [e] }
                analysis_result :=
                  { st.analysis_result with
                    users := bump u
                      st.analysis_result.users } }
          | none =>
            Except.ok
              { st with
                log_data :=
                  { st.log_data with application := st.log_data.application ++ [e] } }) = _
    rw [hu]

/-- C8 witness: the amended statement applied to a concrete line whose
username token is followed by a space, and to the captured user. -/
theorem claim_C8_witness :
    feed_application initAnalyzer lineApp1 = Except.ok
      { initAnalyzer with
        log_data := { initAnalyzer.log_data with
          application := initAnalyzer.log_data.application ++ [eApp1] }
        analysis_result := { initAnalyzer.analysis_result with
          users := bump ("ALICE".data) initAnalyzer.analysis_result.users } } :=
  claim_C8.1 initAnalyzer lineApp1 eApp1 ("ALICE".data) (by decide) (by decide)

/-! ## Claim C9 -/

/-- C9: for every record whose log level is the error level and whose message
contains the high-risk marker, matches the upload-failure pattern with
filename `f` and has an extractable username `u`, one aggregation step
appends exactly one security event carrying the record timestamp, `u`, `f`,
the fixed block type, and the last dot-separated segment of `f` as extension;
this covers both the application and the error category. -/
theorem claim_C9 (r : AnalysisResult) (e : AppEntry) (isErr : Bool) (u f : Str)
    (hlev : e.log_level = wError)
    (hmark : containsSub e.message wGaowei = true)
    (hfile : reSearch (reFuel e.message) uploadPattern e.message = some [f])
    (huser : reSearch (reFuel e.message) userPattern e.message = some [u]) :
    (analyze_entry r (if isErr then LEntry.err e else LEntry.app e)).security_events
      = r.security_events ++
        [{ timestamp := e.timestamp
           user := u
           filename := f
           type := wLanjie
           extension :=
             if containsChar '.' f = true then (splitOnChar '.' f).getLastD []
             else wUnknown }] := by
  have hmsg : e.message ≠ [] := by
    intro hm
    rw [hm] at hmark
    exact absurd hmark (by decide)
  have hsec : ∀ le : LEntry, le.levelOpt = some e.log_level → le.messageOf = e.message →
      le.timestampOf = e.timestamp →
      secEventOf le = some
        { timestamp := e.timestamp
          user := u
          filename := f
          type := wLanjie
          extension :=
            if containsChar '.' f = true then (splitOnChar '.' f).getLastD []
            else wUnknown } := by
    intro le hl hm ht
    unfold secEventOf
    rw [hl, hm, ht, hlev]
    rw [if_pos ⟨rfl, hmark⟩, if_pos hmsg, hfile, huser]
    rfl
  cases isErr with
  | false =>
    show (analyze_entry r (LEntry.app e)).security_events = _
    rw [analyze_entry_security, hsec (LEntry.app e) rfl rfl rfl]
    rfl
  | true =>
    show (analyze_entry r (LEntry.err e)).security_events = _
    rw [analyze_entry_security, hsec (LEntry.err e) rfl rfl rfl]
    rfl

/-- C9 witness: the statement applied to a concrete error-level application
record for the high-risk upload of a concrete executable file. -/
theorem claim_C9_witness :
    (analyze_entry initResult
        (if false then LEntry.err eSec else LEntry.app eSec)).security_events
      = initResult.security_events ++
        [{ timestamp := eSec.timestamp
           user := ("ALICE".data)
           filename := ("virus.exe".data)
           type := wLanjie
           extension :=
             if containsChar '.' ("virus.exe".data) = true
             then (splitOnChar '.' ("virus.exe".data)).getLastD []
             else wUnknown }] :=
  claim_C9 initResult eSec false ("ALICE".data) ("virus.exe".data)
    (by decide) (by decide) (by decide) (by decide)

/-! ## Claim C4 -/

/-- Does an `Except` value hold a result (no exception)? -/
def isOkE {ε α : Type} : Except ε α → Bool
  | .ok _ => true
  | .error _ => false

/-- Does this access line produce a stored record? -/
def accessRecordP (l : Str) : Bool :=
  match parse_access_log l with
  | .ok (some _) => true
  | _ => false

/-- Does this application line produce a stored record? -/
def appRecordP (l : Str) : Bool :=
  match parse_application_log l with
  | .ok (some _) => true
  | _ => false

theorem feedAll_access_count (lines : List Str) :
    ∀ st : Analyzer,
      (∀ l ∈ lines, isOkE (parse_access_log l) = true) →
      ∃ st2, feedAll feed_access st lines = Except.ok st2 ∧
        st2.log_data.access.length
          = st.log_data.access.length + lines.countP accessRecordP := by
  induction lines with
  | nil => intro st _; exact ⟨st, rfl, by simp⟩
  | cons l ls ih =>
    intro st hok
    have hl := hok l (List.mem_cons_self l ls)
    have hls : ∀ x ∈ ls, isOkE (parse_access_log x) = true :=
      fun x hx => hok x (List.mem_cons_of_mem l hx)
    cases hp : parse_access_log l with
    | error e => rw [hp] at hl; exact absurd hl (by simp [isOkE])
    | ok o =>
      cases o with
      | none =>
        have hfeed : feed_access st l = Except.ok st := by
          unfold feed_access; rw [hp]
        have hcount : accessRecordP l = false := by
          unfold accessRecordP; rw [hp]
        obtain ⟨st2, hrun, hlen⟩ := ih st hls
        refine ⟨st2, ?_, ?_⟩
        · show (match feed_access st l with
                | Except.error e => Except.error e
                | Except.ok st1 => feedAll feed_access st1 ls) = Except.ok st2
          rw [hfeed]
          exact hrun
        · rw [hlen, List.countP_cons, hcount]
          simp
      | some e =>
        have hfeed : feed_access st l = Except.ok
            { st with
              log_data := { st.log_data with access := st.log_data.access ++ [e] }
              analysis_result :=
                { st.analysis_result with
                  response_times :=
                    st.analysis_result.response_times ++ [e.response_time]
                  interface_response_times :=
                    appendVal (stripQuery e.path) e.response_time
                      st.analysis_result.interface_response_times } } := by
          unfold feed_access; rw [hp]
        have hcount : accessRecordP l = true := by
          unfold accessRecordP; rw [hp]
        obtain ⟨st2, hrun, hlen⟩ := ih _ hls
        refine ⟨st2, ?_, ?_⟩
        · show (match feed_access st l with
                | Except.error e => Except.error e
                | Except.ok st1 => feedAll feed_access st1 ls) = Except.ok st2
          rw [hfeed]
          exact hrun
        · rw [hlen, List.countP_cons, hcount]
          simp [List.length_append]
          omega

theorem feedAll_application_count (lines : List Str) :
    ∀ st : Analyzer,
      (∀ l ∈ lines, isOkE (parse_application_log l) = true) →
      ∃ st2, feedAll feed_application st lines = Except.ok st2 ∧
        st2.log_data.application.length
          = st.log_data.application.length + lines.countP appRecordP := by
  induction lines with
  | nil => intro st _; exact ⟨st, rfl, by simp⟩
  | cons l ls ih =>
    intro st hok
    have hl := hok l (List.mem_cons_self l ls)
    have hls : ∀ x ∈ ls, isOkE (parse_application_log x) = true :=
      fun x hx => hok x (List.mem_cons_of_mem l hx)
    cases hp : parse_application_log l with
    | error e => rw [hp] at hl; exact absurd hl (by simp [isOkE])
    | ok o =>
      cases o with
      | none =>
        have hfeed : feed_application st l = Except.ok st := by
          unfold feed_application; rw [hp]
        have hcount : appRecordP l = false := by
          unfold appRecordP; rw [hp]
        obtain ⟨st2, hrun, hlen⟩ := ih st hls
        refine ⟨st2, ?_, ?_⟩
        · show (match feed_application st l with
                | Except.error e => Except.error e
                | Except.ok st1 => feedAll feed_application st1 ls) = Except.ok st2
          rw [hfeed]
          exact hrun
        · rw [hlen, List.countP_cons, hcount]
          simp
      | some e =>
        have hcount : appRecordP l = true := by
          unfold appRecordP; rw [hp]
        cases hu : extract_user e.message with
        | some u =>
          have hfeed : feed_application st l = Except.ok
              { st with
                log_data :=
                  { st.log_data with application := st.log_data.application ++ [e] }
                analysis_result :=
                  { st.analysis_result with
                    users := bump u st.analysis_result.users } } := by
            unfold feed_application
            rw [hp]
            show (match extract_user e.message with
                  | some u =>
                    Except.ok
                      { st with
                        log_data :=
                          { st.log_data with
                            application := st.log_data.application ++ [e] }
                        analysis_result :=
                          { st.analysis_result with
                            users := bump u st.analysis_result.users } }
                  | none =>
                    Except.ok
                      { st with
                        log_data :=
                          { st.log_data with
                            application := st.log_data.application ++ [e] } }) = _
            rw [hu]
          obtain ⟨st2, hrun, hlen⟩ := ih _ hls
          refine ⟨st2, ?_, ?_⟩
          · show (match feed_application st l with
                  | Except.error e => Except.error e
                  | Except.ok st1 => feedAll feed_application st1 ls) = Except.ok st2
            rw [hfeed]
            exact hrun
          · rw [hlen, List.countP_cons, hcount]
            simp [List.length_append]
            omega
        | none =>
          have hfeed : feed_application st l = Except.ok
              { st with
                log_data :=
                  { st.log_data with application := st.log_data.application ++ [e] } } := by
            unfold feed_application
            rw [hp]
            show (match extract_user e.message with
                  | some u =>
                    Except.ok
                      { st with
                        log_data :=
                          { st.log_data with
                            application := st.log_data.application ++ [e] }
                        analysis_result :=
                          { st.analysis_result with
                            users := bump u st.analysis_result.users } }
                  | none =>
                    Except.ok
                      { st with
                        log_data :=
                          { st.log_data with
                            application := st.log_data.application ++ [e] } }) = _
            rw [hu]
          obtain ⟨st2, hrun, hlen⟩ := ih _ hls
          refine ⟨st2, ?_, ?_⟩
          · show (match feed_application st l with
                  | Except.error e => Except.error e
                  | Except.ok st1 => feedAll feed_application st1 ls) = Except.ok st2
            rw [hfeed]
            exact hrun
          · rw [hlen, List.countP_cons, hcount]
            simp [List.length_append]
            omega

/-- C4: a line that does not match a category's pattern yields no record and
raises nothing (for all three categories), and feeding any sequence of lines
none of which raises stores exactly one record per line on which the parse
produces a record — so well-formed lines interleaved with arbitrary
non-matching garbage yield exactly the well-formed count. -/
theorem claim_C4 :
    (∀ line, reM (reFuel line) accessPattern line = none →
      parse_access_log line = Except.ok none) ∧
    (∀ line, reM (reFuel line) appPattern line = none →
      parse_application_log line = Except.ok none ∧
      parse_error_log line = Except.ok none) ∧
    (∀ (lines : List Str) (st : Analyzer),
      (∀ l ∈ lines, isOkE (parse_access_log l) = true) →
      ∃ st2, feedAll feed_access st lines = Except.ok st2 ∧
        st2.log_data.access.length
          = st.log_data.access.length + lines.countP accessRecordP) ∧
    (∀ (lines : List Str) (st : Analyzer),
      (∀ l ∈ lines, isOkE (parse_application_log l) = true) →
      ∃ st2, feedAll feed_application st lines = Except.ok st2 ∧
        st2.log_data.application.length
          = st.log_data.application.length + lines.countP appRecordP) := by
  refine ⟨?_, ?_, ?_, ?_⟩
  · intro line h
    unfold parse_access_log
    rw [h]
  · intro line h
    constructor
    · unfold parse_application_log
      rw [h]
    · unfold parse_error_log
      rw [h]
  · intro lines st h
    exact feedAll_access_count lines st h
  · intro lines st h
    exact feedAll_application_count lines st h

/-- C4 witness: the statement applied to a concrete garbage line and to
concrete mixed line sequences (two well-formed access lines plus two garbage
lines; one well-formed application line plus one garbage line). -/
theorem claim_C4_witness :
    parse_access_log lineGarbage1 = Except.ok none ∧
    (parse_application_log lineGarbage2 = Except.ok none ∧
      parse_error_log lineGarbage2 = Except.ok none) ∧
    (∃ st2, feedAll feed_access initAnalyzer demoAccessLines = Except.ok st2 ∧
      st2.log_data.access.length
        = initAnalyzer.log_data.access.length + demoAccessLines.countP accessRecordP) ∧
    (∃ st2, feedAll feed_application initAnalyzer demoAppLines = Except.ok st2 ∧
      st2.log_data.application.length
        = initAnalyzer.log_data.application.length + demoAppLines.countP appRecordP) :=
  ⟨claim_C4.1 lineGarbage1 (by decide),
    claim_C4.2.1 lineGarbage2 (by decide),
    claim_C4.2.2.1 demoAccessLines initAnalyzer (by decide),
    claim_C4.2.2.2 demoAppLines initAnalyzer (by decide)⟩

/-! ## Claim C6 -/

theorem mem_insertDesc {x z : Str × Nat} :
    ∀ {l : List (Str × Nat)}, z ∈ insertDesc x l → z = x ∨ z ∈ l := by
  intro l
  induction l with
  | nil => intro h; simp [insertDesc] at h; exact Or.inl h
  | cons y t ih =>
    intro h
    unfold insertDesc at h
    by_cases hlt : y.2 < x.2
    · rw [if_pos hlt] at h
      rcases List.mem_cons.mp h with h1 | h1
      · exact Or.inl h1
      · exact Or.inr h1
    · rw [if_neg hlt] at h
      rcases List.mem_cons.mp h with h1 | h1
      · subst h1; exact Or.inr (List.mem_cons_self _ t)
      · rcases ih h1 with h2 | h2
        · exact Or.inl h2
        · exact Or.inr (List.mem_cons_of_mem y h2)

theorem insertDesc_pairwise (x : Str × Nat) :
    ∀ l : List (Str × Nat), List.Pairwise (fun a b : Str × Nat => b.2 ≤ a.2) l →
      List.Pairwise (fun a b : Str × Nat => b.2 ≤ a.2) (insertDesc x l) := by
  intro l
  induction l with
  | nil => intro _; simp [insertDesc]
  | cons y t ih =>
    intro h
    rcases List.pairwise_cons.mp h with ⟨hy, ht⟩
    unfold insertDesc
    by_cases hlt : y.2 < x.2
    · rw [if_pos hlt]
      refine List.pairwise_cons.mpr ⟨?_, h⟩
      intro z hz
      rcases List.mem_cons.mp hz with h2 | h2
      · subst h2; exact Nat.le_of_lt hlt
      · exact Nat.le_trans (hy z h2) (Nat.le_of_lt hlt)
    · rw [if_neg hlt]
      refine List.pairwise_cons.mpr ⟨?_, ih ht⟩
      intro z hz
      rcases mem_insertDesc hz with h2 | h2
      · subst h2; exact Nat.le_of_not_lt hlt
      · exact hy z h2

theorem insertDesc_filter (x : Str × Nat) (c : Nat) :
    ∀ l : List (Str × Nat), List.Pairwise (fun a b : Str × Nat => b.2 ≤ a.2) l →
      (insertDesc x l).filter (fun p => p.2 == c)
        = l.filter (fun p => p.2 == c) ++ (if x.2 == c then [x] else []) := by
  intro l
  induction l with
  | nil =>
    intro _
    by_cases hx : (x.2 == c) = true <;> simp [insertDesc, List.filter, hx]
  | cons y t ih =>
    intro h
    rcases List.pairwise_cons.mp h with ⟨hy, ht⟩
    unfold insertDesc
    by_cases hlt : y.2 < x.2
    · rw [if_pos hlt]
      by_cases hx : (x.2 == c) = true
      · have hc : x.2 = c := by simpa using hx
        have hnil : (y :: t).filter (fun p => p.2 == c) = [] := by
          refine List.filter_eq_nil_iff.mpr ?_
          intro z hz
          rcases List.mem_cons.mp hz with h2 | h2
          · subst h2
            simp only [beq_iff_eq]
            omega
          · have hzy := hy z h2
            simp only [beq_iff_eq]
            omega
        rw [List.filter_cons, if_pos hx, hnil, if_pos hx]
        rfl
      · rw [List.filter_cons, if_neg hx, if_neg hx, List.append_nil]
    · rw [if_neg hlt]
      rw [List.filter_cons, List.filter_cons]
      by_cases hyc : (y.2 == c) = true
      · rw [if_pos hyc, if_pos hyc, ih ht, List.cons_append]
      · rw [if_neg hyc, if_neg hyc, ih ht]

theorem sort_go (l : List (Str × Nat)) :
    ∀ acc : List (Str × Nat), List.Pairwise (fun a b : Str × Nat => b.2 ≤ a.2) acc →
      List.Pairwise (fun a b : Str × Nat => b.2 ≤ a.2)
          (l.foldl (fun a x => insertDesc x a) acc) ∧
      ∀ c, (l.foldl (fun a x => insertDesc x a) acc).filter (fun p => p.2 == c)
        = acc.filter (fun p => p.2 == c) ++ l.filter (fun p => p.2 == c) := by
  induction l with
  | nil =>
    intro acc hacc
    exact ⟨hacc, fun c => by simp⟩
  | cons x t ih =>
    intro acc hacc
    have hacc2 := insertDesc_pairwise x acc hacc
    rcases ih (insertDesc x acc) hacc2 with ⟨hp, hf⟩
    refine ⟨hp, ?_⟩
    intro c
    rw [List.foldl_cons, hf c, insertDesc_filter x c acc hacc, List.filter_cons]
    by_cases hx : (x.2 == c) = true
    · rw [if_pos hx, if_pos hx]
      simp
    · rw [if_neg hx, if_neg hx]
      simp

theorem sortByCountDesc_pairwise (l : List (Str × Nat)) :
    List.Pairwise (fun a b : Str × Nat => b.2 ≤ a.2) (sortByCountDesc l) :=
  (sort_go l [] (by simp)).1

theorem sortByCountDesc_filter (l : List (Str × Nat)) (c : Nat) :
    (sortByCountDesc l).filter (fun p => p.2 == c) = l.filter (fun p => p.2 == c) := by
  have h := (sort_go l [] (by simp)).2 c
  simpa [sortByCountDesc] using h

theorem take_filter_ext (n : Nat) (l : List (Str × Nat)) (pc : Str × Nat → Bool) :
    ∃ rest, l.filter pc = (l.take n).filter pc ++ rest :=
  ⟨(l.drop n).filter pc, by rw [← List.filter_append, List.take_append_drop]⟩

/-- C6: the top-users ranking has at most 10 entries and the top-downloads
and top-handlers rankings at most 5 each, regardless of how many distinct
keys exist; each ranking is ordered by count descending; and among keys with
equal counts the ranking preserves first-seen insertion order — the equal-
count entries of a ranking form an initial segment, in order, of the
projection's insertion-ordered equal-count entries. -/
theorem claim_C6 (r : AnalysisResult) :
    ((top_users r).length ≤ 10 ∧ (top_downloads r).length ≤ 5 ∧
      (top_handlers r).length ≤ 5) ∧
    (List.Pairwise (fun a b : Str × Nat => b.2 ≤ a.2) (top_users r) ∧
      List.Pairwise (fun a b : Str × Nat => b.2 ≤ a.2) (top_downloads r) ∧
      List.Pairwise (fun a b : Str × Nat => b.2 ≤ a.2) (top_handlers r)) ∧
    ((∀ c, ∃ rest, r.users.filter (fun p => p.2 == c)
        = (top_users r).filter (fun p => p.2 == c) ++ rest) ∧
      (∀ c, ∃ rest, r.download_stats.filter (fun p => p.2 == c)
        = (top_downloads r).filter (fun p => p.2 == c) ++ rest) ∧
      (∀ c, ∃ rest, r.handlers.filter (fun p => p.2 == c)
        = (top_handlers r).filter (fun p => p.2 == c) ++ rest)) := by
  refine ⟨⟨?_, ?_, ?_⟩, ⟨?_, ?_, ?_⟩, ?_, ?_, ?_⟩
  · exact List.length_take_le 10 (sortByCountDesc r.users)
  · exact List.length_take_le 5 (sortByCountDesc r.download_stats)
  · exact List.length_take_le 5 (sortByCountDesc r.handlers)
  · exact (sortByCountDesc_pairwise r.users).sublist
      (List.take_sublist 10 (sortByCountDesc r.users))
  · exact (sortByCountDesc_pairwise r.download_stats).sublist
      (List.take_sublist 5 (sortByCountDesc r.download_stats))
  · exact (sortByCountDesc_pairwise r.handlers).sublist
      (List.take_sublist 5 (sortByCountDesc r.handlers))
  · intro c
    rcases take_filter_ext 10 (sortByCountDesc r.users) (fun p => p.2 == c) with ⟨rest, hr⟩
    exact ⟨rest, by rw [← sortByCountDesc_filter r.users c, hr]; rfl⟩
  · intro c
    rcases take_filter_ext 5 (sortByCountDesc r.download_stats) (fun p => p.2 == c)
      with ⟨rest, hr⟩
    exact ⟨rest, by rw [← sortByCountDesc_filter r.download_stats c, hr]; rfl⟩
  · intro c
    rcases take_filter_ext 5 (sortByCountDesc r.handlers) (fun p => p.2 == c) with ⟨rest, hr⟩
    exact ⟨rest, by rw [← sortByCountDesc_filter r.handlers c, hr]; rfl⟩

/-- C5 witness: the permutation-invariance statement applied to concrete data
with two access records in swapped order, its status-code lookup conclusion
taken at the concrete key 200 and the order-preservation conclusion for the
response-time sequence. -/
theorem claim_C5_witness :
    alookupN 200 (snapshotOf dW1).status_codes = alookupN 200 (snapshotOf dW2).status_codes ∧
    (snapshotOf dW1).response_times = dW1.access.map AccessEntry.response_time :=
  ⟨(claim_C5 dW1 dW2 (by decide) (by decide) (by decide)).1.2.2.1 200,
    (claim_C5 dW1 dW2 (by decide) (by decide) (by decide)).2.1⟩
